import Mathlib

/-!
# Verification of the Vulkan compute-dispatch runtime

Shallow embedding of `aten/src/ATen/native/vulkan/api/Context.h` (the
`Context::dispatch` orchestration, the `Context::device` / `Context::queue`
accessors, and the member construction/destruction order) and of
`aten/src/ATen/native/vulkan/glsl/hardsigmoid_.glsl` (the saturating affine
kernel).  Native handles are modelled as natural-number identities; GLSL
float arithmetic is modelled exactly over the rationals; the get-or-create
caches and the descriptor-set bind operation, whose implementations live in
headers outside this tree, are modelled from the specification.
-/

set_option autoImplicit false

namespace VulkanApi

/-- `Shader::WorkGroup`: a 3D workgroup extent (a `uvec3`). -/
structure WorkGroup where
  x : Nat
  y : Nat
  z : Nat
deriving DecidableEq, Repr

/-- `Shader::Layout::Signature`: an ordered sequence of binding-slot
descriptors; only its equality and its slot count matter here, so each slot
is abstracted to a `Nat` tag. -/
abbrev Signature := List Nat

/-- `Shader::Descriptor`: identifies a compiled kernel (identity plus
specialization constants), abstracted to its value identity. -/
abbrev ShaderDesc := Nat

/-- Modelled from the spec: a get-or-create cache (spec §4.2–§4.3; the
implementations in `Shader.h` / `Pipeline.h` are not part of this tree).
`entries` maps keys to native-object identities; `nextId` generates fresh
identities for newly created native objects. -/
structure Cache (κ : Type) where
  entries : List (κ × Nat)
  nextId : Nat
deriving DecidableEq

/-- Association-list lookup used by the cache model. -/
def lookupKey {κ : Type} [DecidableEq κ] : List (κ × Nat) → κ → Option Nat
  | [], _ => none
  | (k, v) :: rest, key => if key = k then some v else lookupKey rest key

/-- Modelled from the spec: `cache.retrieve(key)` — return the existing
native object for `key`, or create a fresh one and insert it (spec §4.2:
"get-or-create mapping"). -/
def Cache.retrieve {κ : Type} [DecidableEq κ] (c : Cache κ) (k : κ) :
    Nat × Cache κ :=
  match lookupKey c.entries k with
  | some v => (v, c)
  | none => (c.nextId, ⟨(k, c.nextId) :: c.entries, c.nextId + 1⟩)

/-- `Shader::Layout::Object` as returned by `shader.layout.cache.retrieve`:
carries the native descriptor-set-layout handle; the slot count comes from
the signature the layout was created for (spec §3: a layout corresponds to
an ordered sequence of binding slots). -/
structure LayoutObject where
  handle : Nat
  slotCount : Nat
deriving DecidableEq

/-- The state of a `Context` (Context.h lines 64–73): identity of the object
plus the two shader caches, the two pipeline caches and the descriptor pool
counter it owns. -/
structure Context where
  id : Nat
  shaderLayoutCache : Cache Signature
  shaderModuleCache : Cache ShaderDesc
  pipelineLayoutCache : Cache (Nat × Nat)
  pipelineCache : Cache (Nat × Nat × WorkGroup)
  descriptorNextSet : Nat
deriving DecidableEq

/-- `shader.layout.cache.retrieve({signature})` (Context.h lines 155–158). -/
def Context.retrieveShaderLayout (c : Context) (sig : Signature) :
    LayoutObject × Context :=
  let r := c.shaderLayoutCache.retrieve sig
  (⟨r.1, sig.length⟩, { c with shaderLayoutCache := r.2 })

/-- `pipeline.layout.cache.retrieve({handle, sizeof(params)})`
(Context.h lines 160–164). -/
def Context.retrievePipelineLayout (c : Context) (layoutHandle pushSize : Nat) :
    Nat × Context :=
  let r := c.pipelineLayoutCache.retrieve (layoutHandle, pushSize)
  (r.1, { c with pipelineLayoutCache := r.2 })

/-- `shader.cache.retrieve(shader_descriptor)` (Context.h line 177). -/
def Context.retrieveShaderModule (c : Context) (sd : ShaderDesc) :
    Nat × Context :=
  let r := c.shaderModuleCache.retrieve sd
  (r.1, { c with shaderModuleCache := r.2 })

/-- `pipeline.cache.retrieve({pipe_layout, module, local_work_group_size})`
(Context.h lines 175–179). -/
def Context.retrievePipeline (c : Context) (pipeLayout moduleId : Nat)
    (localSize : WorkGroup) : Nat × Context :=
  let r := c.pipelineCache.retrieve (pipeLayout, moduleId, localSize)
  (r.1, { c with pipelineCache := r.2 })

/-- A transient descriptor set: identity, the slot count of the layout it was
allocated from, and the (slot, argument) pairs bound so far in bind order. -/
structure DescriptorSet where
  setId : Nat
  numSlots : Nat
  bound : List (Nat × Nat)
deriving DecidableEq

/-- `descriptor.pool.allocate(shader_layout)` (Context.h line 181): a fresh,
empty set sized by the layout. -/
def Context.allocateSet (c : Context) (layout : LayoutObject) :
    DescriptorSet × Context :=
  (⟨c.descriptorNextSet, layout.slotCount, []⟩,
   { c with descriptorNextSet := c.descriptorNextSet + 1 })

/-- Failure modes of the bind path. -/
inductive BindError where
  | slotOutOfRange
  | incompleteDescriptorSet
deriving DecidableEq

/-- Modelled from the spec: `Descriptor::Set::bind(slot, argument)` — its
implementation (`Descriptor.h`) is not part of this tree; per spec §8 a
mismatched bind "must fail detectably at bind time, never silently bind a
wrong slot", so binding to a slot outside the layout's range is a detectable
error. -/
def DescriptorSet.bindArg (s : DescriptorSet) (slot arg : Nat) :
    Except BindError DescriptorSet :=
  if slot < s.numSlots then .ok { s with bound := s.bound ++ [(slot, arg)] }
  else .error .slotOutOfRange

/-- `detail::bind` (Context.h lines 124–135): binds the argument at position
`i` of the argument pack to slot `i` of the descriptor set, via
`std::index_sequence` starting at 0. -/
def detailBindFrom (s : DescriptorSet) (i : Nat) :
    List Nat → Except BindError DescriptorSet
  | [] => .ok s
  | a :: rest =>
    match s.bindArg i a with
    | .error e => .error e
    | .ok s2 => detailBindFrom s2 (i + 1) rest

/-- `detail::bind(descriptor_set, std::index_sequence_for<Arguments...>{},
arguments...)`: indices run 0, 1, …, n−1. -/
def detailBind (s : DescriptorSet) (arguments : List Nat) :
    Except BindError DescriptorSet :=
  detailBindFrom s 0 arguments

/-- Pipeline stage flag of a push-constant range
(`VK_SHADER_STAGE_COMPUTE_BIT`, Context.h line 169). -/
inductive ShaderStage where
  | compute
deriving DecidableEq

/-- One observable effect of the dispatch path: cache resolutions,
descriptor-pool allocation, and operations recorded into the command buffer.
`submit` is never produced by `dispatch`; it is what a queue submission
would record. -/
inductive Event where
  | retrieveShaderLayout (ctxId : Nat) (sig : Signature) (handle : Nat)
  | retrievePipelineLayout (ctxId layoutHandle pushSize pipeLayout : Nat)
  | pushConstants (stage : ShaderStage) (offset size : Nat)
  | retrieveShaderModule (ctxId : Nat) (desc : ShaderDesc) (moduleId : Nat)
  | retrievePipeline (ctxId pipeLayout moduleId : Nat) (localSize : WorkGroup)
      (pipe : Nat)
  | bindPipeline (pipe : Nat)
  | allocateDescriptorSet (ctxId layoutHandle setId : Nat)
  | bindArgument (setId slot arg : Nat)
  | bindDescriptorSet (setId : Nat)
  | recordDispatch (global : WorkGroup)
  | submit
deriving DecidableEq

/-- `Context::dispatch` (Context.h lines 139–192).  `_self` is the object the
member function is invoked on (`this`); the body begins with
`Context* const context = api::context();` and uses only that singleton,
modelled by the `apiContext` argument.  Effects are returned as the ordered
trace of the recording, in source order:
layout retrieval (155) → pipeline-layout retrieval (160) →
`vkCmdPushConstants` (166) → shader-module retrieval (177) → pipeline
retrieval (175) → `command_buffer.bind(pipeline)` (174) →
`descriptor.pool.allocate` (181) → `detail::bind` of each argument (184) →
`command_buffer.bind(descriptor_set)` (190) →
`command_buffer.dispatch(global_work_group)` (191).
The completeness check on binding the descriptor set is modelled from the
spec (§8): a set with unbound slots is a detectable bind-time failure. -/
def Context.dispatch (_self : Context) (apiContext : Context)
    (sig : Signature) (sd : ShaderDesc)
    (globalWorkGroup localWorkGroupSize : WorkGroup)
    (params : List Nat) (arguments : List Nat) :
    Except BindError (List Event × Context) :=
  let context := apiContext
  let r1 := context.retrieveShaderLayout sig
  let shaderLayout := r1.1
  let r2 := r1.2.retrievePipelineLayout shaderLayout.handle params.length
  let pipeLayout := r2.1
  let r3 := r2.2.retrieveShaderModule sd
  let shaderModule := r3.1
  let r4 := r3.2.retrievePipeline pipeLayout shaderModule localWorkGroupSize
  let pipe := r4.1
  let r5 := r4.2.allocateSet shaderLayout
  match detailBind r5.1 arguments with
  | .error e => .error e
  | .ok dset =>
    if dset.bound.length = dset.numSlots then
      .ok
        ([Event.retrieveShaderLayout context.id sig shaderLayout.handle,
          Event.retrievePipelineLayout context.id shaderLayout.handle
            params.length pipeLayout,
          Event.pushConstants .compute 0 params.length,
          Event.retrieveShaderModule context.id sd shaderModule,
          Event.retrievePipeline context.id pipeLayout shaderModule
            localWorkGroupSize pipe,
          Event.bindPipeline pipe,
          Event.allocateDescriptorSet context.id shaderLayout.handle
            dset.setId]
          ++ dset.bound.map (fun sa => Event.bindArgument dset.setId sa.1 sa.2)
          ++ [Event.bindDescriptorSet dset.setId,
              Event.recordDispatch globalWorkGroup],
         r5.2)
    else .error .incompleteDescriptorSet

/-- The (slot, argument) pairs produced by binding a list of arguments at
consecutive slots starting from `i`. -/
def enumSlots (i : Nat) : List Nat → List (Nat × Nat)
  | [] => []
  | a :: rest => (i, a) :: enumSlots (i + 1) rest

/-- The results of the resolution phase of one dispatch: the five resolved
identities and the context state after them. -/
structure Resolution where
  shaderLayout : LayoutObject
  pipeLayout : Nat
  shaderModule : Nat
  pipe : Nat
  setId : Nat
  final : Context
deriving DecidableEq

/-- The cache/pool interactions of one dispatch, in source order, as a pure
state transformer (the same chain of retrievals as `Context.dispatch`). -/
def Context.resolve (ctx : Context) (sig : Signature) (sd : ShaderDesc)
    (lwg : WorkGroup) (pushSize : Nat) : Resolution :=
  let r1 := ctx.retrieveShaderLayout sig
  let r2 := r1.2.retrievePipelineLayout r1.1.handle pushSize
  let r3 := r2.2.retrieveShaderModule sd
  let r4 := r3.2.retrievePipeline r2.1 r3.1 lwg
  let r5 := r4.2.allocateSet r1.1
  ⟨r1.1, r2.1, r3.1, r4.1, r5.1.setId, r5.2⟩

/-- The effect trace of one successful dispatch, phrased via `resolve`. -/
def dispatchTrace (ctx : Context) (sig : Signature) (sd : ShaderDesc)
    (gwg lwg : WorkGroup) (pushSize : Nat) (arguments : List Nat) :
    List Event :=
  let r := ctx.resolve sig sd lwg pushSize
  [Event.retrieveShaderLayout ctx.id sig r.shaderLayout.handle,
   Event.retrievePipelineLayout ctx.id r.shaderLayout.handle pushSize
     r.pipeLayout,
   Event.pushConstants .compute 0 pushSize,
   Event.retrieveShaderModule ctx.id sd r.shaderModule,
   Event.retrievePipeline ctx.id r.pipeLayout r.shaderModule lwg r.pipe,
   Event.bindPipeline r.pipe,
   Event.allocateDescriptorSet ctx.id r.shaderLayout.handle r.setId]
    ++ (enumSlots 0 arguments).map
        (fun sa => Event.bindArgument r.setId sa.1 sa.2)
    ++ [Event.bindDescriptorSet r.setId,
        Event.recordDispatch gwg]

/-- What a private handle accessor can do: fire the debug assertion, or
return the stored raw handle unchecked (`none` being a null handle). -/
inductive AccessorResult where
  | fatalAssert
  | value (h : Option Nat)
deriving DecidableEq

/-- `Context::device()` (Context.h lines 112–115):
`TORCH_INTERNAL_ASSERT_DEBUG_ONLY(device_); return device_.get();` — the
truthiness check on the owned handle exists only when `debugBuild` is true;
otherwise the raw handle is returned with no check. -/
def deviceAccessor (debugBuild : Bool) (deviceHandle : Option Nat) :
    AccessorResult :=
  if debugBuild && deviceHandle.isNone then .fatalAssert
  else .value deviceHandle

/-- `Context::queue()` (Context.h lines 117–120): same shape as `device()`
over the `queue_` member. -/
def queueAccessor (debugBuild : Bool) (queueHandle : Option Nat) :
    AccessorResult :=
  if debugBuild && queueHandle.isNone then .fatalAssert
  else .value queueHandle

/-- The non-static data members of `Context`, in declaration order
(Context.h lines 64–73, "Construction and destruction order matters. Do not
move members around."). -/
inductive Member where
  | adapter
  | deviceQueuePairDevice
  | deviceQueuePairQueue
  | command
  | shader
  | pipelineMember
  | descriptor
  | resource
deriving DecidableEq

/-- All eight members, for finite enumeration. -/
def Member.all : List Member :=
  [.adapter, .deviceQueuePairDevice, .deviceQueuePairQueue, .command,
   .shader, .pipelineMember, .descriptor, .resource]

instance : Fintype Member where
  elems := ⟨(Member.all : Multiset Member), by decide⟩
  complete := fun x => by cases x <;> decide

/-- Declaration index of each member (Context.h lines 66–73). -/
def ctorIndex : Member → Nat
  | .adapter => 0
  | .deviceQueuePairDevice => 1
  | .deviceQueuePairQueue => 2
  | .command => 3
  | .shader => 4
  | .pipelineMember => 5
  | .descriptor => 6
  | .resource => 7

/-- C++ constructs non-static data members in declaration order. -/
def constructionOrder : List Member :=
  [.adapter, .deviceQueuePairDevice, .deviceQueuePairQueue, .command,
   .shader, .pipelineMember, .descriptor, .resource]

/-- C++ semantics: when construction completed `k` members (`k = 8` for a
fully constructed `Context`; `k < 8` when the `k`-th member's constructor
threw mid-construction), exactly those `k` members are destroyed, in
reverse declaration order. -/
def destructionOrder (k : Nat) : List Member :=
  (constructionOrder.take k).reverse

/-- Position of member `m` in the teardown sequence. -/
def destroyPos (k : Nat) (m : Member) : Nat :=
  (destructionOrder k).findIdx (fun x => decide (x = m))

/-- Recognizes the per-argument descriptor-set bind events of a trace. -/
def Event.isBindArg : Event → Bool
  | .bindArgument _ _ _ => true
  | _ => false

/-- The context identity through which an event resolved or allocated an
object, when it did. -/
def Event.ctxUser : Event → Option Nat
  | .retrieveShaderLayout c _ _ => some c
  | .retrievePipelineLayout c _ _ _ => some c
  | .retrieveShaderModule c _ _ => some c
  | .retrievePipeline c _ _ _ _ => some c
  | .allocateDescriptorSet c _ _ => some c
  | _ => none

/-- A fresh context (identity 7, empty caches) exercising the dispatch
path concretely. -/
def ctxW : Context := ⟨7, ⟨[], 0⟩, ⟨[], 0⟩, ⟨[], 0⟩, ⟨[], 0⟩, 0⟩

/-- A one-slot binding signature for the concrete dispatches. -/
def sigW : Signature := [1]

/-- The trace of the first concrete dispatch (all cache misses). -/
def trW : List Event :=
  [.retrieveShaderLayout 7 [1] 0, .retrievePipelineLayout 7 0 2 0,
   .pushConstants .compute 0 2, .retrieveShaderModule 7 2 0,
   .retrievePipeline 7 0 0 ⟨1, 1, 1⟩ 0, .bindPipeline 0,
   .allocateDescriptorSet 7 0 0, .bindArgument 0 0 5,
   .bindDescriptorSet 0, .recordDispatch ⟨4, 4, 4⟩]

/-- The context state after the first concrete dispatch. -/
def stW : Context :=
  ⟨7, ⟨[([1], 0)], 1⟩, ⟨[(2, 0)], 1⟩, ⟨[((0, 2), 0)], 1⟩,
   ⟨[((0, 0, ⟨1, 1, 1⟩), 0)], 1⟩, 1⟩

/-- The trace of the second concrete dispatch (all cache hits; only the
descriptor-set identity differs). -/
def trW2 : List Event :=
  [.retrieveShaderLayout 7 [1] 0, .retrievePipelineLayout 7 0 2 0,
   .pushConstants .compute 0 2, .retrieveShaderModule 7 2 0,
   .retrievePipeline 7 0 0 ⟨1, 1, 1⟩ 0, .bindPipeline 0,
   .allocateDescriptorSet 7 0 1, .bindArgument 1 0 5,
   .bindDescriptorSet 1, .recordDispatch ⟨4, 4, 4⟩]

/-- The context state after the second concrete dispatch: identical caches,
advanced pool counter. -/
def stW2 : Context :=
  ⟨7, ⟨[([1], 0)], 1⟩, ⟨[(2, 0)], 1⟩, ⟨[((0, 2), 0)], 1⟩,
   ⟨[((0, 0, ⟨1, 1, 1⟩), 0)], 1⟩, 2⟩

end VulkanApi

namespace Glsl

/-- A 3D global invocation id (`ivec3(gl_GlobalInvocationID)`; invocation
ids are non-negative). -/
structure NVec3 where
  x : Nat
  y : Nat
  z : Nat
deriving DecidableEq

/-- The `uBlock.size` uniform, an `ivec4`. -/
structure IVec4 where
  x : Int
  y : Int
  z : Int
  w : Int
deriving DecidableEq

/-- One rgba16f texel; float channels are modelled exactly over ℚ. -/
structure Vec4 where
  r : ℚ
  g : ℚ
  b : ℚ
  a : ℚ
deriving DecidableEq

/-- The contents of the `uOutput` image3D. -/
def Image := NVec3 → Vec4

/-- GLSL `clamp(x, lo, hi) = min(max(x, lo), hi)`. -/
def clampQ (v lo hi : ℚ) : ℚ := min (max v lo) hi

/-- Componentwise division of a vec4 by a scalar. -/
def Vec4.divS (t : Vec4) (s : ℚ) : Vec4 := ⟨t.r / s, t.g / s, t.b / s, t.a / s⟩

/-- Componentwise addition of a scalar to a vec4. -/
def Vec4.addS (t : Vec4) (s : ℚ) : Vec4 := ⟨t.r + s, t.g + s, t.b + s, t.a + s⟩

/-- Componentwise `clamp` of a vec4 against scalar bounds. -/
def Vec4.clampS (t : Vec4) (lo hi : ℚ) : Vec4 :=
  ⟨clampQ t.r lo hi, clampQ t.g lo hi, clampQ t.b lo hi, clampQ t.a lo hi⟩

/-- `imageLoad(uOutput, pos)`. -/
def imageLoad (img : Image) (pos : NVec3) : Vec4 := img pos

/-- `imageStore(uOutput, pos, v)`. -/
def imageStore (img : Image) (pos : NVec3) (v : Vec4) : Image :=
  fun q => if q = pos then v else img q

/-- `all(lessThan(pos, uBlock.size.xyz))` (hardsigmoid_.glsl line 18). -/
def posInBounds (pos : NVec3) (size : IVec4) : Bool :=
  decide ((pos.x : Int) < size.x) && decide ((pos.y : Int) < size.y) &&
    decide ((pos.z : Int) < size.z)

/-- The transformation applied to an in-bounds texel (lines 19–20):
`clamp(imageLoad(uOutput, pos)/6.0 + 0.5, 0.0, 1.0)`. -/
def hsTransform (t : Vec4) : Vec4 := ((t.divS 6).addS (1 / 2)).clampS 0 1

/-- `main()` of hardsigmoid_.glsl (lines 15–22) for one invocation id:
loads, transforms and stores the texel at `pos` when the bounds check
passes, and does nothing otherwise. -/
def hardsigmoidMain (uBlock : IVec4) (img : Image) (gid : NVec3) : Image :=
  let pos := gid
  if posInBounds pos uBlock then
    imageStore img pos (hsTransform (imageLoad img pos))
  else img

/-- Executing the kernel over a list of invocation ids.  Each invocation
touches at most its own texel, so a sequential fold models the parallel
execution faithfully. -/
def runInvocations (uBlock : IVec4) (ids : List NVec3) (img : Image) :
    Image :=
  ids.foldl (fun im gid => hardsigmoidMain uBlock im gid) img

/-- The global-invocation grid of extent `n`: all ids componentwise below
`n`. -/
def gridIds (n : NVec3) : List NVec3 :=
  ((List.range n.x).product ((List.range n.y).product (List.range n.z))).map
    (fun t => ⟨t.1, t.2.1, t.2.2⟩)

/-- A concrete non-constant image used by the C9 witness. -/
def imgW : Image := fun q => ⟨(q.x : ℚ), (q.y : ℚ), (q.z : ℚ), 2⟩

end Glsl

namespace VulkanApi

theorem lookupKey_cons_self {κ : Type} [DecidableEq κ]
    (rest : List (κ × Nat)) (k : κ) (v : Nat) :
    lookupKey ((k, v) :: rest) k = some v := by
  simp [lookupKey]

/-- A hit returns the stored identity and leaves the cache unchanged. -/
theorem Cache.retrieve_hit {κ : Type} [DecidableEq κ]
    (c : Cache κ) (k : κ) (v : Nat) (h : lookupKey c.entries k = some v) :
    c.retrieve k = (v, c) := by
  simp [Cache.retrieve, h]

/-- After a retrieve, the key is present and maps to the returned identity. -/
theorem Cache.lookup_after_retrieve {κ : Type} [DecidableEq κ]
    (c : Cache κ) (k : κ) :
    lookupKey (c.retrieve k).2.entries k = some (c.retrieve k).1 := by
  unfold Cache.retrieve
  cases h : lookupKey c.entries k with
  | none => simp [lookupKey_cons_self]
  | some v => simp [h]

/-- Retrieving the same key twice returns the identical object identity and
changes nothing the second time: no duplicate creation. -/
theorem Cache.retrieve_idem {κ : Type} [DecidableEq κ] (c : Cache κ) (k : κ) :
    (c.retrieve k).2.retrieve k = c.retrieve k := by
  have h := Cache.lookup_after_retrieve c k
  have := Cache.retrieve_hit (c.retrieve k).2 k (c.retrieve k).1 h
  simpa using this

/-- A retrieve preserves every existing binding. -/
theorem Cache.lookup_retrieve_other {κ : Type} [DecidableEq κ]
    (c : Cache κ) (k k2 : κ) (v : Nat) (h : lookupKey c.entries k = some v) :
    lookupKey (c.retrieve k2).2.entries k = some v := by
  unfold Cache.retrieve
  cases h2 : lookupKey c.entries k2 with
  | some w => simpa [h2] using h
  | none =>
    have hne : k ≠ k2 := by
      intro he; rw [he, h2] at h; exact Option.noConfusion h
    simpa [h2, lookupKey, hne] using h

theorem enumSlots_length (i : Nat) (args : List Nat) :
    (enumSlots i args).length = args.length := by
  induction args generalizing i with
  | nil => rfl
  | cons a rest ih => simp [enumSlots, ih]

/-- When every consecutive slot fits, `detail::bind` succeeds and records
exactly the positional (slot, argument) pairs, in order. -/
theorem detailBindFrom_ok_of_le (args : List Nat) :
    ∀ (s : DescriptorSet) (i : Nat), i + args.length ≤ s.numSlots →
    detailBindFrom s i args = .ok { s with bound := s.bound ++ enumSlots i args } := by
  induction args with
  | nil => intro s i _; simp [detailBindFrom, enumSlots]
  | cons a rest ih =>
    intro s i hle
    have hi : i < s.numSlots := by
      simp only [List.length_cons] at hle; omega
    have hrest : (i + 1) + rest.length ≤ s.numSlots := by
      simp only [List.length_cons] at hle; omega
    simp only [detailBindFrom, DescriptorSet.bindArg, if_pos hi]
    rw [ih { s with bound := s.bound ++ [(i, a)] } (i + 1) hrest]
    simp [enumSlots]

/-- When the arguments overrun the slot count, `detail::bind` fails with an
out-of-range slot error at the first overflowing position. -/
theorem detailBindFrom_err_of_overflow (args : List Nat) :
    ∀ (s : DescriptorSet) (i : Nat), s.numSlots < i + args.length → args ≠ [] →
    detailBindFrom s i args = .error .slotOutOfRange := by
  induction args with
  | nil => intro s i _ hne; exact absurd rfl hne
  | cons a rest ih =>
    intro s i hlt _
    by_cases hi : i < s.numSlots
    · have hne : rest ≠ [] := by
        intro hnil
        subst hnil
        simp only [List.length_cons, List.length_nil] at hlt
        omega
      have hrest : s.numSlots < (i + 1) + rest.length := by
        simp only [List.length_cons] at hlt; omega
      simp only [detailBindFrom, DescriptorSet.bindArg, if_pos hi]
      exact ih { s with bound := s.bound ++ [(i, a)] } (i + 1) hrest hne
    · simp [detailBindFrom, DescriptorSet.bindArg, hi]

/-- Whenever `detail::bind` succeeds, the recorded bindings are exactly the
positional pairs appended to what was already bound. -/
theorem detailBindFrom_ok_inv (args : List Nat) :
    ∀ (s : DescriptorSet) (i : Nat) (s2 : DescriptorSet),
    detailBindFrom s i args = .ok s2 →
    s2 = { s with bound := s.bound ++ enumSlots i args } := by
  induction args with
  | nil =>
    intro s i s2 h
    simp only [detailBindFrom] at h
    cases h
    simp [enumSlots]
  | cons a rest ih =>
    intro s i s2 h
    by_cases hi : i < s.numSlots
    · simp only [detailBindFrom, DescriptorSet.bindArg, if_pos hi] at h
      have := ih { s with bound := s.bound ++ [(i, a)] } (i + 1) s2 h
      simpa [enumSlots] using this
    · simp [detailBindFrom, DescriptorSet.bindArg, hi] at h

/-- When the argument count matches the signature's slot count, `dispatch`
succeeds, records exactly `dispatchTrace`, and leaves the caches in the
state produced by `resolve`. -/
theorem dispatch_eq_ok (self ctx : Context) (sig : Signature) (sd : ShaderDesc)
    (gwg lwg : WorkGroup) (params arguments : List Nat)
    (h : arguments.length = sig.length) :
    Context.dispatch self ctx sig sd gwg lwg params arguments =
      .ok (dispatchTrace ctx sig sd gwg lwg params.length arguments,
           (ctx.resolve sig sd lwg params.length).final) := by
  have hb : ∀ s : DescriptorSet, s.numSlots = sig.length → s.bound = [] →
      detailBind s arguments = .ok { s with bound := enumSlots 0 arguments } := by
    intro s hn hbnd
    have := detailBindFrom_ok_of_le arguments s 0 (by omega)
    simpa [detailBind, hbnd] using this
  simp only [Context.dispatch, Context.resolve, dispatchTrace,
    Context.retrieveShaderLayout, Context.retrievePipelineLayout,
    Context.retrieveShaderModule, Context.retrievePipeline,
    Context.allocateSet]
  rw [hb _ rfl rfl]
  simp [enumSlots_length, h]

/-- A dispatch can only succeed when the argument count equals the
signature's slot count. -/
theorem dispatch_ok_length (self ctx : Context) (sig : Signature)
    (sd : ShaderDesc) (gwg lwg : WorkGroup) (params arguments : List Nat)
    (p : List Event × Context)
    (h : Context.dispatch self ctx sig sd gwg lwg params arguments = .ok p) :
    arguments.length = sig.length := by
  simp only [Context.dispatch] at h
  split at h
  · exact absurd h (by simp)
  · rename_i dset heq
    split at h
    · rename_i hlen
      have hinv := detailBindFrom_ok_inv arguments _ 0 dset
        (by simpa [detailBind] using heq)
      subst hinv
      simpa [Context.allocateSet, Context.retrieveShaderLayout,
        enumSlots_length] using hlen
    · exact absurd h (by simp)

/-- `resolve` written out over the four independent caches and the pool
counter: each retrieval touches a distinct field of the context. -/
theorem resolve_unfold (ctx : Context) (sig : Signature) (sd : ShaderDesc)
    (lwg : WorkGroup) (ps : Nat) :
    ctx.resolve sig sd lwg ps =
      ⟨⟨(ctx.shaderLayoutCache.retrieve sig).1, sig.length⟩,
       (ctx.pipelineLayoutCache.retrieve
          ((ctx.shaderLayoutCache.retrieve sig).1, ps)).1,
       (ctx.shaderModuleCache.retrieve sd).1,
       (ctx.pipelineCache.retrieve
          ((ctx.pipelineLayoutCache.retrieve
              ((ctx.shaderLayoutCache.retrieve sig).1, ps)).1,
           (ctx.shaderModuleCache.retrieve sd).1, lwg)).1,
       ctx.descriptorNextSet,
       { ctx with
          shaderLayoutCache := (ctx.shaderLayoutCache.retrieve sig).2,
          pipelineLayoutCache := (ctx.pipelineLayoutCache.retrieve
            ((ctx.shaderLayoutCache.retrieve sig).1, ps)).2,
          shaderModuleCache := (ctx.shaderModuleCache.retrieve sd).2,
          pipelineCache := (ctx.pipelineCache.retrieve
            ((ctx.pipelineLayoutCache.retrieve
                ((ctx.shaderLayoutCache.retrieve sig).1, ps)).1,
             (ctx.shaderModuleCache.retrieve sd).1, lwg)).2,
          descriptorNextSet := ctx.descriptorNextSet + 1 }⟩ := rfl

/-- Resolving the same (signature, kernel descriptor, local workgroup size,
push-constant size) a second time returns the identical four native-object
identities and changes nothing but the descriptor-pool counter. -/
theorem resolve_stable (ctx : Context) (sig : Signature) (sd : ShaderDesc)
    (lwg : WorkGroup) (ps : Nat) :
    ((ctx.resolve sig sd lwg ps).final.resolve sig sd lwg ps).shaderLayout
        = (ctx.resolve sig sd lwg ps).shaderLayout
    ∧ ((ctx.resolve sig sd lwg ps).final.resolve sig sd lwg ps).pipeLayout
        = (ctx.resolve sig sd lwg ps).pipeLayout
    ∧ ((ctx.resolve sig sd lwg ps).final.resolve sig sd lwg ps).shaderModule
        = (ctx.resolve sig sd lwg ps).shaderModule
    ∧ ((ctx.resolve sig sd lwg ps).final.resolve sig sd lwg ps).pipe
        = (ctx.resolve sig sd lwg ps).pipe
    ∧ ((ctx.resolve sig sd lwg ps).final.resolve sig sd lwg ps).final
        = { (ctx.resolve sig sd lwg ps).final with
              descriptorNextSet :=
                (ctx.resolve sig sd lwg ps).final.descriptorNextSet + 1 } := by
  have e1 := Cache.retrieve_idem ctx.shaderLayoutCache sig
  have e2 := Cache.retrieve_idem ctx.pipelineLayoutCache
    ((ctx.shaderLayoutCache.retrieve sig).1, ps)
  have e3 := Cache.retrieve_idem ctx.shaderModuleCache sd
  have e4 := Cache.retrieve_idem ctx.pipelineCache
    ((ctx.pipelineLayoutCache.retrieve
        ((ctx.shaderLayoutCache.retrieve sig).1, ps)).1,
     (ctx.shaderModuleCache.retrieve sd).1, lwg)
  simp only [resolve_unfold]
  rw [e1, e2, e3, e4]
  exact ⟨rfl, rfl, rfl, rfl, rfl⟩

/-- Inversion of a successful dispatch: the trace is `dispatchTrace` and the
final state is the one produced by `resolve`. -/
theorem dispatch_ok_inv (self ctx : Context) (sig : Signature)
    (sd : ShaderDesc) (gwg lwg : WorkGroup) (params arguments : List Nat)
    (tr : List Event) (st : Context)
    (h : Context.dispatch self ctx sig sd gwg lwg params arguments =
          .ok (tr, st)) :
    tr = dispatchTrace ctx sig sd gwg lwg params.length arguments
    ∧ st = (ctx.resolve sig sd lwg params.length).final := by
  have hlen := dispatch_ok_length self ctx sig sd gwg lwg params arguments
    (tr, st) h
  rw [dispatch_eq_ok self ctx sig sd gwg lwg params arguments hlen] at h
  simp only [Except.ok.injEq, Prod.mk.injEq] at h
  exact ⟨h.1.symm, h.2.symm⟩

theorem destructionOrder_of_ge (k : Nat) (hk : 8 ≤ k) :
    destructionOrder k = destructionOrder 8 := by
  unfold destructionOrder constructionOrder
  rw [List.take_of_length_le (by simpa using hk),
    List.take_of_length_le (by simp)]

theorem teardown_reverse_bounded :
    ∀ k < 9, ∀ a b : Member, ctorIndex a < ctorIndex b →
      b ∈ destructionOrder k →
      a ∈ destructionOrder k ∧ destroyPos k b < destroyPos k a := by
  intro k hk a b hab hbm
  interval_cases k <;> cases a <;> cases b <;>
    first
      | exact absurd hab (by decide)
      | exact absurd hbm (by decide)
      | exact ⟨by decide, by decide⟩

theorem enumSlots_eq_enumFrom (args : List Nat) :
    ∀ i, enumSlots i args = List.enumFrom i args := by
  induction args with
  | nil => intro i; rfl
  | cons a rest ih => intro i; simp [enumSlots, List.enumFrom, ih]

/-- C6: every use of the Context's device or queue accessor while the
device/queue are not yet initialized fails fatally via the debug-only
assertion in a debug build; in a release build the check is compiled out
and the accessor returns the raw null handle unchecked (undefined behavior
downstream rather than a checked failure), while an initialized handle is
returned unchanged in either build. -/
theorem device_queue_uninitialized_debug_assertion :
    deviceAccessor true none = .fatalAssert
    ∧ queueAccessor true none = .fatalAssert
    ∧ deviceAccessor false none = .value none
    ∧ queueAccessor false none = .value none
    ∧ (∀ h : Nat, deviceAccessor true (some h) = .value (some h))
    ∧ (∀ h : Nat, queueAccessor true (some h) = .value (some h)) :=
  ⟨rfl, rfl, rfl, rfl, fun _ => rfl, fun _ => rfl⟩

/-- C7: teardown of a Context destroys its members in strict reverse
construction order, for every teardown including one after an error during
construction (`k` members constructed, `k ≤ 8`): whenever member `a` is
declared (hence constructed) before member `b` and `b` was constructed,
both are destroyed and `b` is destroyed strictly before `a`.  In
particular Descriptor is released before Pipeline, Pipeline before Shader,
Shader before Command, Command before the device/queue pair, and the
device/queue pair before the Adapter. -/
theorem teardown_strict_reverse_order (k : Nat) (a b : Member)
    (hab : ctorIndex a < ctorIndex b) (hbm : b ∈ destructionOrder k) :
    a ∈ destructionOrder k ∧ destroyPos k b < destroyPos k a := by
  rcases Nat.lt_or_ge k 9 with hk | hk
  · exact teardown_reverse_bounded k hk a b hab hbm
  · have h8 : destructionOrder k = destructionOrder 8 :=
      destructionOrder_of_ge k (by omega)
    have hp : ∀ m, destroyPos k m = destroyPos 8 m := by
      intro m; unfold destroyPos; rw [h8]
    rw [h8] at hbm
    rw [h8, hp, hp]
    exact teardown_reverse_bounded 8 (by norm_num) a b hab hbm

/-- Witness for C7: with all 8 members constructed, Descriptor is destroyed
strictly before Pipeline. -/
theorem teardown_strict_reverse_order_witness :
    ctorIndex Member.pipelineMember < ctorIndex Member.descriptor
    ∧ Member.descriptor ∈ destructionOrder 8
    ∧ (Member.pipelineMember ∈ destructionOrder 8
        ∧ destroyPos 8 Member.descriptor < destroyPos 8 Member.pipelineMember) :=
  ⟨by decide, by decide,
   teardown_strict_reverse_order 8 Member.pipelineMember Member.descriptor
     (by decide) (by decide)⟩

/-- C4: a dispatch whose resource-argument count differs from the slot
count of the supplied binding signature fails detectably at bind time — an
out-of-range slot error when there are more arguments than slots, an
incomplete-descriptor-set error when there are fewer — and returns no
recording at all, so no argument is ever silently bound to a wrong slot. -/
theorem dispatch_arity_mismatch_fails (self ctx : Context) (sig : Signature)
    (sd : ShaderDesc) (gwg lwg : WorkGroup) (params arguments : List Nat)
    (h : arguments.length ≠ sig.length) :
    ∃ e, Context.dispatch self ctx sig sd gwg lwg params arguments =
      .error e := by
  rcases Nat.lt_or_ge arguments.length sig.length with hlt | hge
  · have hb : ∀ s : DescriptorSet, s.numSlots = sig.length → s.bound = [] →
        detailBind s arguments = .ok { s with bound := enumSlots 0 arguments } := by
      intro s hn hbnd
      have := detailBindFrom_ok_of_le arguments s 0 (by omega)
      simpa [detailBind, hbnd] using this
    refine ⟨.incompleteDescriptorSet, ?_⟩
    simp only [Context.dispatch, Context.retrieveShaderLayout,
      Context.retrievePipelineLayout, Context.retrieveShaderModule,
      Context.retrievePipeline, Context.allocateSet]
    rw [hb _ rfl rfl]
    simp only [enumSlots_length]
    rw [if_neg (by simpa [enumSlots_length] using Nat.ne_of_lt hlt)]
  · have hgt : sig.length < arguments.length := by omega
    have hne : arguments ≠ [] := by
      intro hnil
      rw [hnil] at hgt
      simp at hgt
    have hb : ∀ s : DescriptorSet, s.numSlots = sig.length →
        detailBind s arguments = .error .slotOutOfRange := by
      intro s hn
      exact detailBindFrom_err_of_overflow arguments s 0 (by omega) hne
    refine ⟨.slotOutOfRange, ?_⟩
    simp only [Context.dispatch, Context.retrieveShaderLayout,
      Context.retrievePipelineLayout, Context.retrieveShaderModule,
      Context.retrievePipeline, Context.allocateSet]
    rw [hb _ rfl]

/-- C2: every successful dispatch records exactly this ordered effect
sequence: descriptor-set layout resolved, pipeline layout resolved, the
parameter block pushed inline, shader module and pipeline resolved from
their caches, the pipeline bound, a descriptor set allocated from the
layout, each resource argument bound into the set, the set bound to the
command buffer, and a dispatch instruction with the global workgroup size —
and no submission or execution ever appears in the recording. -/
theorem dispatch_effect_order (self ctx : Context) (sig : Signature)
    (sd : ShaderDesc) (gwg lwg : WorkGroup) (params arguments : List Nat)
    (tr : List Event) (st : Context)
    (h : Context.dispatch self ctx sig sd gwg lwg params arguments =
          .ok (tr, st)) :
    (∃ layoutHandle pipeLayoutId moduleId pipeId setId,
      tr = [Event.retrieveShaderLayout ctx.id sig layoutHandle,
            Event.retrievePipelineLayout ctx.id layoutHandle params.length
              pipeLayoutId,
            Event.pushConstants .compute 0 params.length,
            Event.retrieveShaderModule ctx.id sd moduleId,
            Event.retrievePipeline ctx.id pipeLayoutId moduleId lwg pipeId,
            Event.bindPipeline pipeId,
            Event.allocateDescriptorSet ctx.id layoutHandle setId]
          ++ (enumSlots 0 arguments).map
              (fun sa => Event.bindArgument setId sa.1 sa.2)
          ++ [Event.bindDescriptorSet setId,
              Event.recordDispatch gwg])
    ∧ Event.submit ∉ tr := by
  obtain ⟨htr, -⟩ :=
    dispatch_ok_inv self ctx sig sd gwg lwg params arguments tr st h
  subst htr
  refine ⟨⟨_, _, _, _, _, rfl⟩, ?_⟩
  simp [dispatchTrace, List.mem_append, List.mem_map]

/-- C3: in every successful dispatch with n resource arguments, the i-th
argument (in argument order) is bound into the freshly allocated descriptor
set at positional slot i: the bind events of the trace are exactly the
enumeration of the argument list. -/
theorem dispatch_positional_binding (self ctx : Context) (sig : Signature)
    (sd : ShaderDesc) (gwg lwg : WorkGroup) (params arguments : List Nat)
    (tr : List Event) (st : Context)
    (h : Context.dispatch self ctx sig sd gwg lwg params arguments =
          .ok (tr, st)) :
    ∃ setId, tr.filter Event.isBindArg
      = arguments.enum.map (fun ia => Event.bindArgument setId ia.1 ia.2) := by
  obtain ⟨htr, -⟩ :=
    dispatch_ok_inv self ctx sig sd gwg lwg params arguments tr st h
  subst htr
  refine ⟨(ctx.resolve sig sd lwg params.length).setId, ?_⟩
  simp only [dispatchTrace, List.filter_append, List.enum,
    ← enumSlots_eq_enumFrom]
  simp only [Event.isBindArg, List.filter_map, Function.comp]
  simp [Event.isBindArg]
  congr 1
  exact List.filter_eq_self.mpr fun a _ => rfl

/-- C8: dispatch resolves the layout, module, pipeline layout, pipeline and
descriptor set through the process-wide singleton returned by
`api::context()` and never through the receiver: the result is independent
of the Context object dispatch was invoked on, and every resolution or
allocation event in the trace is tagged with the singleton's identity. -/
theorem dispatch_uses_singleton_context (self1 self2 ctx : Context)
    (sig : Signature) (sd : ShaderDesc) (gwg lwg : WorkGroup)
    (params arguments : List Nat) (tr : List Event) (st : Context)
    (h : Context.dispatch self1 ctx sig sd gwg lwg params arguments =
          .ok (tr, st)) :
    Context.dispatch self1 ctx sig sd gwg lwg params arguments
      = Context.dispatch self2 ctx sig sd gwg lwg params arguments
    ∧ (∀ e ∈ tr, ∀ i, Event.ctxUser e = some i → i = ctx.id) := by
  refine ⟨rfl, ?_⟩
  obtain ⟨htr, -⟩ :=
    dispatch_ok_inv self1 ctx sig sd gwg lwg params arguments tr st h
  subst htr
  intro e he i hi
  simp only [dispatchTrace, List.mem_append, List.mem_cons, List.mem_map,
    List.mem_singleton, List.not_mem_nil, or_false] at he
  rcases he with ((rfl | rfl | rfl | rfl | rfl | rfl | rfl) | ⟨sa, -, rfl⟩)
    | rfl | rfl <;>
    simp only [Event.ctxUser, Option.some.injEq, reduceCtorEq] at hi <;>
    omega

/-- C10: in every successful dispatch with a parameter block of `n` bytes,
the push-constant write covers exactly those `n` bytes at byte offset 0
with compute-stage visibility, and the pipeline-layout cache key carries
the same `n` as its push-constant byte size, so the pushed range always
matches the layout the pipeline was created against. -/
theorem dispatch_push_constant_consistency (self ctx : Context)
    (sig : Signature) (sd : ShaderDesc) (gwg lwg : WorkGroup)
    (params arguments : List Nat) (tr : List Event) (st : Context)
    (h : Context.dispatch self ctx sig sd gwg lwg params arguments =
          .ok (tr, st)) :
    (Event.pushConstants .compute 0 params.length ∈ tr)
    ∧ (∀ stg off sz, Event.pushConstants stg off sz ∈ tr →
        stg = .compute ∧ off = 0 ∧ sz = params.length)
    ∧ (∃ layoutHandle pipeLayoutId,
        Event.retrievePipelineLayout ctx.id layoutHandle params.length
          pipeLayoutId ∈ tr)
    ∧ (∀ c lh ps pl, Event.retrievePipelineLayout c lh ps pl ∈ tr →
        ps = params.length) := by
  obtain ⟨htr, -⟩ :=
    dispatch_ok_inv self ctx sig sd gwg lwg params arguments tr st h
  subst htr
  refine ⟨by simp [dispatchTrace], ?_, ?_, ?_⟩
  · intro stg off sz hmem
    simp only [dispatchTrace, List.mem_append, List.mem_cons, List.mem_map,
      List.mem_singleton, List.not_mem_nil, or_false] at hmem
    rcases hmem with ((he | he | he | he | he | he | he) | ⟨sa, -, he⟩)
      | he | he <;> first
      | (cases he; exact ⟨rfl, rfl, rfl⟩)
      | exact absurd he (by simp)
  · exact ⟨(ctx.resolve sig sd lwg params.length).shaderLayout.handle,
      (ctx.resolve sig sd lwg params.length).pipeLayout,
      by simp [dispatchTrace]⟩
  · intro c lh ps pl hmem
    simp only [dispatchTrace, List.mem_append, List.mem_cons, List.mem_map,
      List.mem_singleton, List.not_mem_nil, or_false] at hmem
    rcases hmem with ((he | he | he | he | he | he | he) | ⟨sa, -, he⟩)
      | he | he <;> first
      | (cases he; rfl)
      | exact absurd he (by simp)

/-- C1: identical cache keys always resolve to the identical native object
instance and create no duplicate — retrieving any key a second time returns
the same identity and leaves the cache untouched; in particular two
successive dispatches with identical (signature, kernel descriptor, local
workgroup size, push-constant byte size) bind the identical pipeline, and
the second dispatch creates no new descriptor-set layout, shader module,
pipeline layout or pipeline: all four caches are unchanged after it. -/
theorem cache_identical_keys_identical_objects
    (self1 self2 ctx : Context) (sig : Signature) (sd : ShaderDesc)
    (gwg1 gwg2 lwg : WorkGroup) (params1 params2 args1 args2 : List Nat)
    (tr1 tr2 : List Event) (st1 st2 : Context)
    (hps : params2.length = params1.length)
    (h1 : Context.dispatch self1 ctx sig sd gwg1 lwg params1 args1 =
          .ok (tr1, st1))
    (h2 : Context.dispatch self2 st1 sig sd gwg2 lwg params2 args2 =
          .ok (tr2, st2)) :
    (∀ (c : Cache Nat) (k : Nat),
        ((c.retrieve k).2.retrieve k).1 = (c.retrieve k).1
        ∧ ((c.retrieve k).2.retrieve k).2 = (c.retrieve k).2)
    ∧ (∃ p, Event.bindPipeline p ∈ tr1 ∧ Event.bindPipeline p ∈ tr2)
    ∧ st2.shaderLayoutCache = st1.shaderLayoutCache
    ∧ st2.shaderModuleCache = st1.shaderModuleCache
    ∧ st2.pipelineLayoutCache = st1.pipelineLayoutCache
    ∧ st2.pipelineCache = st1.pipelineCache := by
  obtain ⟨htr1, hst1⟩ :=
    dispatch_ok_inv self1 ctx sig sd gwg1 lwg params1 args1 tr1 st1 h1
  obtain ⟨htr2, hst2⟩ :=
    dispatch_ok_inv self2 st1 sig sd gwg2 lwg params2 args2 tr2 st2 h2
  rw [hps] at htr2 hst2
  obtain ⟨-, -, -, hpipe, hfinal⟩ := resolve_stable ctx sig sd lwg params1.length
  refine ⟨?_, ?_, ?_, ?_, ?_, ?_⟩
  · intro c k
    have := Cache.retrieve_idem c k
    exact ⟨congrArg Prod.fst this, congrArg Prod.snd this⟩
  · refine ⟨(ctx.resolve sig sd lwg params1.length).pipe, ?_, ?_⟩
    · rw [htr1]; simp [dispatchTrace]
    · rw [htr2, hst1]
      have : ((ctx.resolve sig sd lwg params1.length).final.resolve
          sig sd lwg params1.length).pipe =
          (ctx.resolve sig sd lwg params1.length).pipe := hpipe
      simp [dispatchTrace, this]
  · rw [hst2, hst1, hfinal]
  · rw [hst2, hst1, hfinal]
  · rw [hst2, hst1, hfinal]
  · rw [hst2, hst1, hfinal]

/-- Witness for C1: two concrete dispatches with identical keys bind the
identical pipeline and leave every cache unchanged. -/
theorem cache_identical_keys_identical_objects_witness :
    (([9, 9] : List Nat).length = ([9, 9] : List Nat).length)
    ∧ Context.dispatch ctxW ctxW sigW 2 ⟨4, 4, 4⟩ ⟨1, 1, 1⟩ [9, 9] [5] =
        .ok (trW, stW)
    ∧ Context.dispatch ctxW stW sigW 2 ⟨4, 4, 4⟩ ⟨1, 1, 1⟩ [9, 9] [5] =
        .ok (trW2, stW2)
    ∧ (∃ p, Event.bindPipeline p ∈ trW ∧ Event.bindPipeline p ∈ trW2)
    ∧ stW2.pipelineCache = stW.pipelineCache :=
  ⟨rfl, by rfl, by rfl,
   (cache_identical_keys_identical_objects ctxW ctxW ctxW sigW 2
     ⟨4, 4, 4⟩ ⟨4, 4, 4⟩ ⟨1, 1, 1⟩ [9, 9] [9, 9] [5] [5] trW trW2 stW stW2
     rfl (by rfl) (by rfl)).2.1,
   (cache_identical_keys_identical_objects ctxW ctxW ctxW sigW 2
     ⟨4, 4, 4⟩ ⟨4, 4, 4⟩ ⟨1, 1, 1⟩ [9, 9] [9, 9] [5] [5] trW trW2 stW stW2
     rfl (by rfl) (by rfl)).2.2.2.2.2⟩

/-- Witness for C2: the concrete dispatch records no submission. -/
theorem dispatch_effect_order_witness :
    Context.dispatch ctxW ctxW sigW 2 ⟨4, 4, 4⟩ ⟨1, 1, 1⟩ [9, 9] [5] =
        .ok (trW, stW)
    ∧ Event.submit ∉ trW :=
  ⟨by rfl,
   (dispatch_effect_order ctxW ctxW sigW 2 ⟨4, 4, 4⟩ ⟨1, 1, 1⟩ [9, 9] [5]
     trW stW (by rfl)).2⟩

/-- Witness for C3: the concrete dispatch binds its single argument at
slot 0. -/
theorem dispatch_positional_binding_witness :
    Context.dispatch ctxW ctxW sigW 2 ⟨4, 4, 4⟩ ⟨1, 1, 1⟩ [9, 9] [5] =
        .ok (trW, stW)
    ∧ (∃ setId, trW.filter Event.isBindArg =
        ([5] : List Nat).enum.map
          (fun ia => Event.bindArgument setId ia.1 ia.2)) :=
  ⟨by rfl,
   dispatch_positional_binding ctxW ctxW sigW 2 ⟨4, 4, 4⟩ ⟨1, 1, 1⟩ [9, 9]
     [5] trW stW (by rfl)⟩

/-- Witness for C4: two arguments against a one-slot signature fail. -/
theorem dispatch_arity_mismatch_fails_witness :
    (([5, 6] : List Nat).length ≠ sigW.length)
    ∧ (∃ e, Context.dispatch ctxW ctxW sigW 2 ⟨4, 4, 4⟩ ⟨1, 1, 1⟩ [9, 9]
        [5, 6] = .error e) :=
  ⟨by decide,
   dispatch_arity_mismatch_fails ctxW ctxW sigW 2 ⟨4, 4, 4⟩ ⟨1, 1, 1⟩
     [9, 9] [5, 6] (by decide)⟩

/-- Witness for C8: every resolution event of the concrete dispatch is
tagged with the singleton identity 7. -/
theorem dispatch_uses_singleton_context_witness :
    Context.dispatch ctxW ctxW sigW 2 ⟨4, 4, 4⟩ ⟨1, 1, 1⟩ [9, 9] [5] =
        .ok (trW, stW)
    ∧ (∀ e ∈ trW, ∀ i, Event.ctxUser e = some i → i = ctxW.id) :=
  ⟨by rfl,
   (dispatch_uses_singleton_context ctxW stW ctxW sigW 2 ⟨4, 4, 4⟩
     ⟨1, 1, 1⟩ [9, 9] [5] trW stW (by rfl)).2⟩

/-- Witness for C10: the concrete two-byte parameter block is pushed as
exactly two bytes at offset 0 for the compute stage. -/
theorem dispatch_push_constant_consistency_witness :
    Context.dispatch ctxW ctxW sigW 2 ⟨4, 4, 4⟩ ⟨1, 1, 1⟩ [9, 9] [5] =
        .ok (trW, stW)
    ∧ Event.pushConstants .compute 0 ([9, 9] : List Nat).length ∈ trW :=
  ⟨by rfl,
   (dispatch_push_constant_consistency ctxW ctxW sigW 2 ⟨4, 4, 4⟩
     ⟨1, 1, 1⟩ [9, 9] [5] trW stW (by rfl)).1⟩

end VulkanApi

namespace Glsl

theorem hardsigmoidMain_other (u : IVec4) (img : Image) (gid q : NVec3)
    (h : q ≠ gid) : hardsigmoidMain u img gid q = img q := by
  unfold hardsigmoidMain imageStore
  split <;> simp [h]

theorem hardsigmoidMain_self (u : IVec4) (img : Image) (gid : NVec3) :
    hardsigmoidMain u img gid gid =
      if posInBounds gid u then hsTransform (img gid) else img gid := by
  unfold hardsigmoidMain imageStore imageLoad
  split <;> simp

theorem runInvocations_not_mem (u : IVec4) (ids : List NVec3) :
    ∀ (img : Image) (p : NVec3), p ∉ ids →
      runInvocations u ids img p = img p := by
  induction ids with
  | nil => intro img p _; rfl
  | cons gid rest ih =>
    intro img p hp
    have hpr : p ∉ rest := fun hmem => hp (List.mem_cons_of_mem _ hmem)
    have hpg : p ≠ gid := fun he => hp (he ▸ List.mem_cons_self _ _)
    calc runInvocations u (gid :: rest) img p
        = runInvocations u rest (hardsigmoidMain u img gid) p := rfl
      _ = hardsigmoidMain u img gid p := ih _ p hpr
      _ = img p := hardsigmoidMain_other u img gid p hpg

theorem runInvocations_mem (u : IVec4) (ids : List NVec3) :
    ∀ (img : Image) (p : NVec3), ids.Nodup → p ∈ ids →
      runInvocations u ids img p =
        if posInBounds p u then hsTransform (img p) else img p := by
  induction ids with
  | nil => intro img p _ hp; cases hp
  | cons gid rest ih =>
    intro img p hnd hp
    rcases List.mem_cons.mp hp with he | hmem
    · subst he
      have hpr : p ∉ rest := (List.nodup_cons.mp hnd).1
      calc runInvocations u (p :: rest) img p
          = runInvocations u rest (hardsigmoidMain u img p) p := rfl
        _ = hardsigmoidMain u img p p := runInvocations_not_mem u rest _ p hpr
        _ = _ := hardsigmoidMain_self u img p
    · have hpg : p ≠ gid := by
        intro he
        exact (List.nodup_cons.mp hnd).1 (he ▸ hmem)
      have := ih (hardsigmoidMain u img gid) p (List.nodup_cons.mp hnd).2 hmem
      calc runInvocations u (gid :: rest) img p
          = runInvocations u rest (hardsigmoidMain u img gid) p := rfl
        _ = if posInBounds p u then
              hsTransform (hardsigmoidMain u img gid p)
            else hardsigmoidMain u img gid p := this
        _ = _ := by rw [hardsigmoidMain_other u img gid p hpg]

theorem mem_gridIds (n : NVec3) (p : NVec3) :
    p ∈ gridIds n ↔ p.x < n.x ∧ p.y < n.y ∧ p.z < n.z := by
  unfold gridIds
  constructor
  · intro h
    obtain ⟨t, ht, he⟩ := List.mem_map.mp h
    obtain ⟨h1, h2⟩ := List.mem_product.mp ht
    obtain ⟨h3, h4⟩ := List.mem_product.mp h2
    subst he
    exact ⟨List.mem_range.mp h1, List.mem_range.mp h3, List.mem_range.mp h4⟩
  · intro ⟨h1, h2, h3⟩
    refine List.mem_map.mpr ⟨(p.x, p.y, p.z), ?_, rfl⟩
    exact List.mem_product.mpr ⟨List.mem_range.mpr h1,
      List.mem_product.mpr ⟨List.mem_range.mpr h2, List.mem_range.mpr h3⟩⟩

theorem gridIds_nodup (n : NVec3) : (gridIds n).Nodup := by
  unfold gridIds
  refine List.Nodup.map ?_ ?_
  · intro t1 t2 he
    obtain ⟨a1, b1, c1⟩ := t1
    obtain ⟨a2, b2, c2⟩ := t2
    cases he
    rfl
  · exact List.Nodup.product (List.nodup_range _)
      (List.Nodup.product (List.nodup_range _) (List.nodup_range _))

/-- C5: for every 3D position within the extents, the saturating affine
(hardsigmoid) kernel replaces the stored value v at that position with
clamp(v/6 + 0.5, 0, 1), componentwise on the texel; in particular for an
image pre-filled with v at every element and extents equal to the image
dimensions, v = −3 yields output 0, v = 0 yields output 0.5, and v = 3
yields output 1. -/
theorem hardsigmoid_saturating_values (n : NVec3) (u : IVec4) (v : ℚ)
    (p : NVec3)
    (hx : u.x = (n.x : Int)) (hy : u.y = (n.y : Int)) (hz : u.z = (n.z : Int))
    (hp : posInBounds p u = true) :
    runInvocations u (gridIds n) (fun _ => ⟨v, v, v, v⟩) p
      = ⟨clampQ (v / 6 + 1 / 2) 0 1, clampQ (v / 6 + 1 / 2) 0 1,
         clampQ (v / 6 + 1 / 2) 0 1, clampQ (v / 6 + 1 / 2) 0 1⟩
    ∧ (v = -3 →
        runInvocations u (gridIds n) (fun _ => ⟨v, v, v, v⟩) p = ⟨0, 0, 0, 0⟩)
    ∧ (v = 0 →
        runInvocations u (gridIds n) (fun _ => ⟨v, v, v, v⟩) p
          = ⟨1 / 2, 1 / 2, 1 / 2, 1 / 2⟩)
    ∧ (v = 3 →
        runInvocations u (gridIds n) (fun _ => ⟨v, v, v, v⟩) p
          = ⟨1, 1, 1, 1⟩) := by
  have hb : ((p.x : Int) < u.x ∧ (p.y : Int) < u.y) ∧ (p.z : Int) < u.z := by
    simpa [posInBounds, Bool.and_eq_true, decide_eq_true_eq] using hp
  have hmem : p ∈ gridIds n := by
    rw [mem_gridIds]
    rw [hx] at hb; rw [hy] at hb; rw [hz] at hb
    exact ⟨by exact_mod_cast hb.1.1, by exact_mod_cast hb.1.2,
      by exact_mod_cast hb.2⟩
  have hrun := runInvocations_mem u (gridIds n)
    (fun _ => (⟨v, v, v, v⟩ : Vec4)) p (gridIds_nodup n) hmem
  rw [if_pos hp] at hrun
  refine ⟨hrun.trans rfl, ?_, ?_, ?_⟩ <;> intro hv <;> subst hv <;>
    rw [hrun] <;>
    norm_num [hsTransform, Vec4.divS, Vec4.addS, Vec4.clampS, clampQ]

/-- C9: a hardsigmoid invocation reads, transforms and writes its texel in
place exactly when its 3D position is componentwise strictly less than the
extents in the uniform block; every texel at a position not satisfying that
bound is left unchanged, both by the single invocation and across a whole
dispatch. -/
theorem hardsigmoid_in_bounds_only (u : IVec4) (img : Image) (gid : NVec3)
    (ids : List NVec3) (p : NVec3) :
    (posInBounds gid u = true →
      hardsigmoidMain u img gid =
        imageStore img gid (hsTransform (imageLoad img gid)))
    ∧ (posInBounds gid u = false → hardsigmoidMain u img gid = img)
    ∧ (posInBounds p u = false → runInvocations u ids img p = img p) := by
  refine ⟨?_, ?_, ?_⟩
  · intro h; simp [hardsigmoidMain, h]
  · intro h; simp [hardsigmoidMain, h]
  · intro h
    induction ids generalizing img with
    | nil => rfl
    | cons g rest ih =>
      calc runInvocations u (g :: rest) img p
          = runInvocations u rest (hardsigmoidMain u img g) p := rfl
        _ = hardsigmoidMain u img g p := ih _
        _ = img p := ?_
      by_cases hg : p = g
      · subst hg
        rw [hardsigmoidMain_self]
        simp [h]
      · exact hardsigmoidMain_other u img g p hg

/-- Witness for C5: on a 1×1×2 image pre-filled with −3 and matching
extents, the in-bounds position (0,0,1) comes out as 0. -/
theorem hardsigmoid_saturating_values_witness :
    ((⟨1, 1, 2, 9⟩ : IVec4).x = ((⟨1, 1, 2⟩ : NVec3).x : Int))
    ∧ ((⟨1, 1, 2, 9⟩ : IVec4).y = ((⟨1, 1, 2⟩ : NVec3).y : Int))
    ∧ ((⟨1, 1, 2, 9⟩ : IVec4).z = ((⟨1, 1, 2⟩ : NVec3).z : Int))
    ∧ posInBounds ⟨0, 0, 1⟩ ⟨1, 1, 2, 9⟩ = true
    ∧ runInvocations ⟨1, 1, 2, 9⟩ (gridIds ⟨1, 1, 2⟩)
        (fun _ => ⟨-3, -3, -3, -3⟩) ⟨0, 0, 1⟩ = ⟨0, 0, 0, 0⟩ :=
  ⟨rfl, rfl, rfl, by decide,
   (hardsigmoid_saturating_values ⟨1, 1, 2⟩ ⟨1, 1, 2, 9⟩ (-3) ⟨0, 0, 1⟩
     rfl rfl rfl (by decide)).2.1 rfl⟩

/-- Witness for C9: position (0,0,1) is in bounds and gets transformed;
position (5,0,0) is out of bounds and survives a whole dispatch
unchanged. -/
theorem hardsigmoid_in_bounds_only_witness :
    posInBounds ⟨0, 0, 1⟩ ⟨1, 1, 2, 9⟩ = true
    ∧ hardsigmoidMain ⟨1, 1, 2, 9⟩ imgW ⟨0, 0, 1⟩ =
        imageStore imgW ⟨0, 0, 1⟩ (hsTransform (imageLoad imgW ⟨0, 0, 1⟩))
    ∧ posInBounds ⟨5, 0, 0⟩ ⟨1, 1, 2, 9⟩ = false
    ∧ runInvocations ⟨1, 1, 2, 9⟩ (gridIds ⟨1, 1, 2⟩) imgW ⟨5, 0, 0⟩ =
        imgW ⟨5, 0, 0⟩ :=
  ⟨by decide,
   (hardsigmoid_in_bounds_only ⟨1, 1, 2, 9⟩ imgW ⟨0, 0, 1⟩
     (gridIds ⟨1, 1, 2⟩) ⟨5, 0, 0⟩).1 (by decide),
   by decide,
   (hardsigmoid_in_bounds_only ⟨1, 1, 2, 9⟩ imgW ⟨0, 0, 1⟩
     (gridIds ⟨1, 1, 2⟩) ⟨5, 0, 0⟩).2.2 (by decide)⟩

end Glsl
